import Mathlib

/-!
Verification of the SillyPCAP capture-file parser core (`sillypcap.py`).

The embedding models the format-detection and extraction engine:
`detect_format`, `_parse_classic_pcap` (global header + record loop),
`_parse_pcapng` (delegation to the external dpkt reader), the scanning
fallback `_parse_pcapng_fallback`, `_parse_with_dpkt`, `parse_file` and
`load_pcap`.

Modelling conventions:
- A file is a `List Nat` of byte values; multi-byte fields are decoded with
  explicit base-256 arithmetic (`readU32`, `readU16`), each byte taken mod 256.
- Python floats are modelled as exact rationals (`ℚ`).
- The byte source is `Except IOErr (List Nat)`: opening/reading the file either
  yields the whole byte string or raises an I/O error (the same outcome on each
  open within one parse call).
- Python exceptions become `Except PError` results; `try/except` blocks become
  matches on those results.
- The external dpkt library (not part of this repository) is abstracted by
  `DpktRun`: the frames its reader yields before either finishing or raising.
- The classic record loop and the scanning fallback loop are `while` loops;
  they are embedded with a structural fuel argument that the wrapper
  instantiates with an upper bound on the iteration count (each iteration
  consumes at least one byte of the remaining input).
- The per-record "quantum tunneled" warning that `_parse_classic_pcap` logs
  when it zero-pads a short payload is counted by the `recovered` component of
  the result (the spec's recovered-record counter; the Python session object
  stores no such attribute, it only logs).
-/

namespace SillyPCAP

/-- A byte string: the contents of a capture file. -/
abbrev ByteSeq := List Nat

/-- Byte order used by `struct.unpack` format strings. -/
inductive Endian
  | little
  | big
deriving DecidableEq

/-- `struct.unpack('<I' / '>I', first 4 bytes)`: decode an unsigned 32-bit
integer from the first four bytes of `d` (missing bytes read as 0, each byte
taken mod 256). -/
def readU32 : Endian → ByteSeq → Nat
  | .little, d =>
    d.getD 0 0 % 256 + 256 * (d.getD 1 0 % 256) + 65536 * (d.getD 2 0 % 256)
      + 16777216 * (d.getD 3 0 % 256)
  | .big, d =>
    16777216 * (d.getD 0 0 % 256) + 65536 * (d.getD 1 0 % 256)
      + 256 * (d.getD 2 0 % 256) + d.getD 3 0 % 256

/-- `struct.unpack('<H' / '>H', first 2 bytes)`. -/
def readU16 : Endian → ByteSeq → Nat
  | .little, d => d.getD 0 0 % 256 + 256 * (d.getD 1 0 % 256)
  | .big, d => 256 * (d.getD 0 0 % 256) + d.getD 1 0 % 256

/-- One captured frame (`QuantumPacket` restricted to the parsing-relevant
fields: `raw_data`, `timestamp`, `interface_id`). -/
structure Frame where
  payload : ByteSeq
  timestamp : ℚ
  interface_id : Nat
deriving DecidableEq

/-- The endianness string returned by `detect_format`. -/
inductive EndianTag
  | little
  | big
  | unknown
deriving DecidableEq

/-- The format string returned by `detect_format`. -/
inductive FormatType
  | classic
  | nanosecond
  | pcapng
  | wireless_cap
deriving DecidableEq

/-- The `PCAP_MAGIC_NUMBERS` table, in Python dict insertion order. -/
def PCAP_MAGIC_NUMBERS : List (Nat × EndianTag × FormatType) :=
  [(0xa1b2c3d4, .little, .classic),
   (0xd4c3b2a1, .big, .classic),
   (0xa1b23c4d, .little, .nanosecond),
   (0x4d3cb2a1, .big, .nanosecond),
   (0x0a0d0d0a, .little, .pcapng)]

/-- An I/O error raised by the host while opening/reading a file
(`OSError`); the payload is an abstract error code. -/
structure IOErr where
  code : Nat
deriving DecidableEq

/-- A byte source: opening and reading it either yields the file's bytes or
raises an I/O error. -/
abbrev ByteSource := Except IOErr ByteSeq

/-- The messages of the `ValueError`s raised by the parser, as an enumeration:
the unknown-file-format error of `parse_file`, the empty-file error of
`load_pcap`, the missing-dpkt error of `_parse_pcapng`, the
could-not-parse error that `_parse_pcapng_fallback` raises (wrapping either
its internal no-packets-found error or a read failure), and a re-raised dpkt
exception. -/
inductive ErrMsg
  | unknownFileFormat
  | fileIsEmpty
  | pcapngRequiresDpkt
  | couldNotParsePcapng
  | dpktFailed
deriving DecidableEq

/-- The Python exceptions surfaced by the parser: `ValueError`s,
`struct.error` (from unpacking a too-short buffer), and I/O errors. -/
inductive PError
  | valueError (msg : ErrMsg)
  | structError
  | ioErr (e : IOErr)
deriving DecidableEq

/-- The loop body of `detect_format`: for each table entry, first compare the
little-endian reading of the magic bytes, then (`elif`) the big-endian
reading. -/
def lookupMagic (magicLe magicBe : Nat) :
    List (Nat × EndianTag × FormatType) → Option (EndianTag × FormatType)
  | [] => none
  | (magic, endian, formatType) :: rest =>
    if magicLe = magic then some (endian, formatType)
    else if magicBe = magic then some (endian, formatType)
    else lookupMagic magicLe magicBe rest

/-- `CognitivePCAPParser.detect_format`: read the first 4 bytes, try both
endian interpretations against the magic table, then the wireless `\xff\xff`
heuristic.  Any exception (in particular an I/O error while opening/reading)
is caught, logged, and turned into `(None, None)`. -/
def detect_format (src : ByteSource) : Option (EndianTag × FormatType) :=
  match src with
  | .error _ => none
  | .ok data =>
    if data.length < 4 then none
    else
      let magic_le := readU32 .little data
      let magic_be := readU32 .big data
      match lookupMagic magic_le magic_be PCAP_MAGIC_NUMBERS with
      | some r => some r
      | none => if data.take 2 = [0xff, 0xff] then some (.unknown, .wireless_cap) else none

/-- The `format_info` dict populated by `_parse_classic_pcap` (version kept as
the two numeric components rather than a formatted string). -/
structure FormatInfo where
  magic : Nat
  version_major : Nat
  version_minor : Nat
  snaplen : Nat
  network : Nat
  format : FormatType
  endian : EndianTag
deriving DecidableEq

/-- The packet-record loop of `_parse_classic_pcap` (`while True: ...`),
with a structural fuel argument.  Returns the frames in file order together
with the number of records whose payload was zero-padded (one logged
"quantum tunneled" warning per such record).  One iteration consumes
`16 + incl_len ≥ 16` bytes, so `data.length` is sufficient fuel. -/
def parseRecordsF : Nat → Endian → Bool → ByteSeq → List Frame × Nat
  | 0, _, _, _ => ([], 0)
  | fuel + 1, e, nano, data =>
    if data.length < 16 then ([], 0)
    else
      let ts_sec := readU32 e data
      let ts_frac := readU32 e (data.drop 4)
      let incl_len := readU32 e (data.drop 8)
      let timestamp : ℚ :=
        if nano then (ts_sec : ℚ) + (ts_frac : ℚ) / 1000000000
        else (ts_sec : ℚ) + (ts_frac : ℚ) / 1000000
      let packet_data := (data.drop 16).take incl_len
      let payload := packet_data ++ List.replicate (incl_len - packet_data.length) 0
      let padded : Nat := if packet_data.length < incl_len then 1 else 0
      let prev := parseRecordsF fuel e nano ((data.drop 16).drop incl_len)
      (⟨payload, timestamp, 0⟩ :: prev.1, padded + prev.2)

/-- The record loop of `_parse_classic_pcap`, run on the bytes that follow the
24-byte global header. -/
def parseRecords (e : Endian) (nano : Bool) (data : ByteSeq) : List Frame × Nat :=
  parseRecordsF data.length e nano data

/-- `endian == "little"` dispatch used by `_parse_classic_pcap` to choose
between the `'<...'` and `'>...'` format strings. -/
def endianOf (t : EndianTag) : Endian :=
  if t = EndianTag.little then .little else .big

/-- The body of `_parse_classic_pcap`'s `try` block once the file bytes are in
hand: unpack the 24-byte global header (raising `struct.error` when fewer than
24 bytes are available), then run the record loop. -/
def _parse_classic_core (endian : EndianTag) (format_type : FormatType) (data : ByteSeq) :
    Except PError (FormatInfo × List Frame × Nat) :=
  if data.length < 24 then .error .structError
  else
    let e := endianOf endian
    let magic := readU32 e data
    let version_major := readU16 e (data.drop 4)
    let version_minor := readU16 e (data.drop 6)
    let snaplen := readU32 e (data.drop 16)
    let network := readU32 e (data.drop 20)
    let nano := format_type == FormatType.nanosecond
    let r := parseRecords e nano (data.drop 24)
    .ok (⟨magic, version_major, version_minor, snaplen, network, format_type, endian⟩, r.1, r.2)

/-- Modelled from the spec: the host platform's capable reader (§4.3), i.e. the
external dpkt library, which is not part of this repository.  Iterating a dpkt
reader yields `yielded` frames and then either finishes normally or raises
(`fails = true`). -/
structure DpktRun where
  yielded : List Frame
  fails : Bool
deriving DecidableEq

/-- `CognitivePCAPParser._parse_with_dpkt`: open the file (an I/O error
propagates out of its `try` via the bare `raise`), hand it to dpkt, and append
every yielded frame to `self.packets`; if dpkt raises, re-raise. -/
def _parse_with_dpkt (run : DpktRun) (src : ByteSource) (packets : List Frame) :
    Except PError (List Frame) :=
  match src with
  | .error e => .error (.ioErr e)
  | .ok _ =>
    if run.fails then .error (.valueError .dpktFailed)
    else .ok (packets ++ run.yielded)

/-- `CognitivePCAPParser._parse_classic_pcap`: parse the classic format; on any
exception fall back to `_parse_with_dpkt` when dpkt is available, otherwise
re-raise.  `packets` is the session's `self.packets` list, which the record
loop appends to (the only failure points precede the first append). -/
def _parse_classic_pcap (dpktAvailable : Bool) (run : DpktRun) (endian : EndianTag)
    (format_type : FormatType) (src : ByteSource) (packets : List Frame) :
    Except PError (List Frame × Nat) :=
  match src with
  | .error e =>
    if dpktAvailable then (_parse_with_dpkt run src packets).map (fun fs => (fs, 0))
    else .error (.ioErr e)
  | .ok data =>
    match _parse_classic_core endian format_type data with
    | .ok (_, fs, recovered) => .ok (packets ++ fs, recovered)
    | .error err =>
      if dpktAvailable then (_parse_with_dpkt run src packets).map (fun fs => (fs, 0))
      else .error err

/-- `pos += block_len` followed by padding to the next 4-byte boundary. -/
def align4 (n : Nat) : Nat :=
  if n % 4 = 0 then n else n + (4 - n % 4)

/-- Loop control of `_parse_pcapng_fallback`: at offset `pos`, either stop
(fewer than 16 bytes remain, declared block length zero, or declared length
exceeding the remaining buffer) or advance to the next block boundary. -/
def fallbackStep (data : ByteSeq) (pos : Nat) : Option Nat :=
  if pos + 16 ≤ data.length then
    let block_len := readU32 Endian.little (data.drop (pos + 4))
    if block_len = 0 ∨ data.length - pos < block_len then none
    else some (pos + align4 block_len)
  else none

/-- Frame extraction attempted at one offset by `_parse_pcapng_fallback`: if
the block type is the Enhanced-Packet-Block identifier and the declared length
is at least 32, read `incl_len` at block offset 12, bounds-check, and
synthesize the timestamp from the two 32-bit fields at block offsets 8 and 12
(the code reads `incl_len` and `ts_low` from the same four bytes). -/
def fallbackExtract (data : ByteSeq) (pos : Nat) : List Frame :=
  let block_type := readU32 Endian.little (data.drop pos)
  let block_len := readU32 Endian.little (data.drop (pos + 4))
  if block_type = 0x00000006 ∧ 32 ≤ block_len then
    let incl_len := readU32 Endian.little (data.drop (pos + 12))
    if pos + 16 + incl_len ≤ data.length then
      let ts_high := readU32 Endian.little (data.drop (pos + 8))
      let ts_low := readU32 Endian.little (data.drop (pos + 12))
      [⟨(data.drop (pos + 16)).take incl_len,
        ((((ts_high <<< 32) ||| ts_low : Nat)) : ℚ) / 1000000, 0⟩]
    else []
  else []

/-- The scanning loop of `_parse_pcapng_fallback`, with structural fuel; each
iteration advances `pos` by at least one byte, so `data.length - pos` is
sufficient fuel. -/
def fallbackLoopF : Nat → ByteSeq → Nat → List Frame
  | 0, _, _ => []
  | fuel + 1, data, pos =>
    match fallbackStep data pos with
    | none => []
    | some next => fallbackExtract data pos ++ fallbackLoopF fuel data next

/-- The scanning loop of `_parse_pcapng_fallback` started at offset `pos`. -/
def fallbackLoop (data : ByteSeq) (pos : Nat) : List Frame :=
  fallbackLoopF (data.length - pos) data pos

/-- `CognitivePCAPParser._parse_pcapng_fallback`: read the whole file, scan it
for plausible blocks, append every extracted frame to `self.packets`; if no
frame was found (or the file could not be read) raise `ValueError`. -/
def _parse_pcapng_fallback (src : ByteSource) (packets : List Frame) :
    Except PError (List Frame) :=
  match src with
  | .error _ => .error (.valueError .couldNotParsePcapng)
  | .ok data =>
    let fs := fallbackLoop data 0
    if 0 < fs.length then .ok (packets ++ fs)
    else .error (.valueError .couldNotParsePcapng)

/-- `CognitivePCAPParser._parse_pcapng`: raise immediately when dpkt is not
importable; otherwise iterate the dpkt pcapng reader, appending each yielded
frame to `self.packets`, and on any exception (I/O or mid-iteration dpkt
error) run `_parse_pcapng_fallback` on the already-extended packet list. -/
def _parse_pcapng (dpktAvailable : Bool) (run : DpktRun) (src : ByteSource)
    (packets : List Frame) : Except PError (List Frame) :=
  if dpktAvailable then
    match src with
    | .error _ => _parse_pcapng_fallback src packets
    | .ok _ =>
      let acc := packets ++ run.yielded
      if run.fails then _parse_pcapng_fallback src acc
      else .ok acc
  else .error (.valueError .pcapngRequiresDpkt)

/-- `CognitivePCAPParser.parse_file`: detect the format and dispatch.
`pcapngRun` and `dpktRun` model the behavior of the external dpkt readers on
this file; the `Nat` in the result is the recovered-record count of the
classic path (0 elsewhere). -/
def parse_file (dpktAvailable : Bool) (pcapngRun dpktRun : DpktRun) (src : ByteSource)
    (packets : List Frame) : Except PError (List Frame × Nat) :=
  match detect_format src with
  | some (_, FormatType.pcapng) =>
    (_parse_pcapng dpktAvailable pcapngRun src packets).map (fun fs => (fs, 0))
  | some (endian, FormatType.classic) =>
    _parse_classic_pcap dpktAvailable dpktRun endian FormatType.classic src packets
  | some (endian, FormatType.nanosecond) =>
    _parse_classic_pcap dpktAvailable dpktRun endian FormatType.nanosecond src packets
  | _ =>
    if dpktAvailable then (_parse_with_dpkt dpktRun src packets).map (fun fs => (fs, 0))
    else .error (.valueError .unknownFileFormat)

/-- `SillyPCAP.load_pcap`: reject zero-byte files with `ValueError` before
parsing, then run `parse_file` on a fresh session (`self.packets = []`). -/
def load_pcap (dpktAvailable : Bool) (pcapngRun dpktRun : DpktRun) (src : ByteSource) :
    Except PError (List Frame × Nat) :=
  match src with
  | .error e => .error (.ioErr e)
  | .ok data =>
    if data.length = 0 then .error (.valueError .fileIsEmpty)
    else parse_file dpktAvailable pcapngRun dpktRun src []

/-! ### Encoders for building classic-format inputs -/

/-- Encode an unsigned 32-bit value as four bytes in the given byte order. -/
def encodeU32 (e : Endian) (n : Nat) : ByteSeq :=
  match e with
  | .little => [n % 256, n / 256 % 256, n / 65536 % 256, n / 16777216 % 256]
  | .big => [n / 16777216 % 256, n / 65536 % 256, n / 256 % 256, n % 256]

/-- Encode an unsigned 16-bit value as two bytes in the given byte order. -/
def encodeU16 (e : Endian) (n : Nat) : ByteSeq :=
  match e with
  | .little => [n % 256, n / 256 % 256]
  | .big => [n / 256 % 256, n % 256]

/-- A classic-format packet record before encoding. -/
structure RawRecord where
  ts_sec : Nat
  ts_frac : Nat
  incl : Nat
  orig : Nat
  payload : ByteSeq
deriving DecidableEq

/-- A record is well formed when its header fields fit in 32 bits and its
payload has exactly the declared captured length. -/
def RawRecord.wf (r : RawRecord) : Prop :=
  r.ts_sec < 4294967296 ∧ r.ts_frac < 4294967296 ∧ r.incl < 4294967296 ∧
    r.payload.length = r.incl

instance (r : RawRecord) : Decidable r.wf := by
  unfold RawRecord.wf; infer_instance

/-- The 16-byte record header `(ts_sec, ts_frac, incl_len, orig_len)`. -/
def encodeRecordHeader (e : Endian) (r : RawRecord) : ByteSeq :=
  encodeU32 e r.ts_sec ++ encodeU32 e r.ts_frac ++ encodeU32 e r.incl ++ encodeU32 e r.orig

/-- A full record: 16-byte header followed by the payload. -/
def encodeRecord (e : Endian) (r : RawRecord) : ByteSeq :=
  encodeRecordHeader e r ++ r.payload

/-- A sequence of records, concatenated in file order. -/
def encodeRecords (e : Endian) (rs : List RawRecord) : ByteSeq :=
  rs.foldr (fun r acc => encodeRecord e r ++ acc) []

/-- The 24-byte classic global header
`(magic, version_major, version_minor, thiszone, sigfigs, snaplen, network)`. -/
def encodeGlobalHeader (e : Endian) (magic vmaj vmin thiszone sigfigs snaplen network : Nat) :
    ByteSeq :=
  encodeU32 e magic ++ encodeU16 e vmaj ++ encodeU16 e vmin ++ encodeU32 e thiszone ++
    encodeU32 e sigfigs ++ encodeU32 e snaplen ++ encodeU32 e network

/-- The timestamp `_parse_classic_pcap` computes for a record. -/
def tsOf (nano : Bool) (r : RawRecord) : ℚ :=
  if nano then (r.ts_sec : ℚ) + (r.ts_frac : ℚ) / 1000000000
  else (r.ts_sec : ℚ) + (r.ts_frac : ℚ) / 1000000

/-- The frame `_parse_classic_pcap` produces for a well-formed record. -/
def frameOf (nano : Bool) (r : RawRecord) : Frame :=
  ⟨r.payload, tsOf nano r, 0⟩

/-! ### Concrete inputs used by the claim instances -/

def ghDemo : ByteSeq := encodeGlobalHeader .little 0xa1b2c3d4 2 4 0 0 65535 1
def leFileC2 : ByteSeq := ghDemo ++ encodeRecord .little ⟨1, 0, 0, 0, []⟩
def beFileC2 : ByteSeq :=
  encodeGlobalHeader .big 0xa1b2c3d4 2 4 0 0 65535 1 ++ encodeRecord .big ⟨1, 0, 0, 0, []⟩
def epb0 : ByteSeq :=
  [6, 0, 0, 0, 32, 0, 0, 0, 0, 0, 0, 0, 4, 0, 0, 0,
   222, 173, 190, 239, 0, 0, 0, 0, 0, 0, 0, 0, 0, 0, 0, 0]
def shb12 : ByteSeq := [10, 13, 13, 10, 12, 0, 0, 0, 0, 0, 0, 0]
def pcapngC1 : ByteSeq := shb12 ++ epb0
def garbEpb : ByteSeq := [0, 0, 0, 0, 0, 0, 0, 0] ++ epb0
def f0C1 : Frame := ⟨[9, 9, 9], 0, 0⟩
def f1C1 : Frame := ⟨[222, 173, 190, 239], 1 / 250000, 0⟩
def r1demo : RawRecord :=
  ⟨1700000000, 500000, 16, 16, [0, 0, 0, 0, 0, 0, 0, 0, 0, 0, 0, 0, 0, 0, 8, 0]⟩
def c4data : ByteSeq := encodeRecord .little r1demo
def c3last : RawRecord :=
  ⟨1700000001, 250000, 20, 20, [7, 7, 7, 7, 7, 7, 7, 7, 7, 7, 7, 7, 7, 7, 7, 7, 7, 7, 7, 7]⟩
def c5tail : ByteSeq := [1, 2, 3]

/-! ### Basic lemmas about the embedding -/


theorem length_encodeU32 (e : Endian) (n : Nat) : (encodeU32 e n).length = 4 := by
  cases e <;> rfl

theorem readU32_encodeU32 (e : Endian) (n : Nat) (l : ByteSeq) :
    readU32 e (encodeU32 e n ++ l) = n % 4294967296 := by
  cases e <;> simp [encodeU32, readU32] <;> omega

theorem drop_four_encodeU32 (e : Endian) (n : Nat) (l : ByteSeq) :
    (encodeU32 e n ++ l).drop 4 = l := by
  cases e <;> rfl

theorem drop_sixteen_header (e : Endian) (r : RawRecord) (l : ByteSeq) :
    (encodeRecordHeader e r ++ l).drop 16 = l := by
  unfold encodeRecordHeader
  cases e <;> rfl

theorem length_encodeRecordHeader (e : Endian) (r : RawRecord) :
    (encodeRecordHeader e r).length = 16 := by
  unfold encodeRecordHeader
  cases e <;> rfl

theorem le_align4 (n : Nat) : n ≤ align4 n := by
  unfold align4; split <;> omega

theorem parseRecordsF_congr (n : Nat) :
    ∀ (fuel₁ fuel₂ : Nat) (e : Endian) (nano : Bool) (data : ByteSeq),
      data.length ≤ n → data.length ≤ fuel₁ → data.length ≤ fuel₂ →
      parseRecordsF fuel₁ e nano data = parseRecordsF fuel₂ e nano data := by
  induction n with
  | zero =>
    intro fuel₁ fuel₂ e nano data hn h₁ h₂
    have hd : data = [] := List.eq_nil_of_length_eq_zero (Nat.le_zero.mp hn)
    subst hd
    cases fuel₁ <;> cases fuel₂ <;> simp [parseRecordsF]
  | succ n ih =>
    intro fuel₁ fuel₂ e nano data hn h₁ h₂
    cases fuel₁ with
    | zero =>
      have hd : data = [] := List.eq_nil_of_length_eq_zero (Nat.le_zero.mp h₁)
      subst hd
      cases fuel₂ <;> simp [parseRecordsF]
    | succ m₁ =>
      cases fuel₂ with
      | zero =>
        have hd : data = [] := List.eq_nil_of_length_eq_zero (Nat.le_zero.mp h₂)
        subst hd
        simp [parseRecordsF]
      | succ m₂ =>
        by_cases hlt : data.length < 16
        · simp [parseRecordsF, hlt]
        · simp only [parseRecordsF, if_neg hlt]
          rw [ih m₁ m₂ e nano ((data.drop 16).drop (readU32 e (data.drop 8)))
            (by simp [List.length_drop]; omega)
            (by simp [List.length_drop]; omega)
            (by simp [List.length_drop]; omega)]

theorem parseRecords_eq (e : Endian) (nano : Bool) (data : ByteSeq) :
    parseRecords e nano data =
      if data.length < 16 then ([], 0)
      else
        let ts_sec := readU32 e data
        let ts_frac := readU32 e (data.drop 4)
        let incl_len := readU32 e (data.drop 8)
        let timestamp : ℚ :=
          if nano then (ts_sec : ℚ) + (ts_frac : ℚ) / 1000000000
          else (ts_sec : ℚ) + (ts_frac : ℚ) / 1000000
        let packet_data := (data.drop 16).take incl_len
        let payload := packet_data ++ List.replicate (incl_len - packet_data.length) 0
        let padded : Nat := if packet_data.length < incl_len then 1 else 0
        let prev := parseRecords e nano ((data.drop 16).drop incl_len)
        (⟨payload, timestamp, 0⟩ :: prev.1, padded + prev.2) := by
  by_cases hlt : data.length < 16
  · cases data with
    | nil => simp [parseRecords, parseRecordsF]
    | cons a l =>
      rw [if_pos hlt]
      unfold parseRecords
      simp only [List.length_cons, parseRecordsF]
      rw [if_pos (by simpa using hlt)]
  · rw [if_neg hlt]
    cases data with
    | nil => exact absurd (by simp) hlt
    | cons a l =>
      unfold parseRecords
      simp only [List.length_cons, parseRecordsF]
      rw [if_neg (by simpa using hlt)]
      have hrl : (((a :: l).drop 16).drop (readU32 e ((a :: l).drop 8))).length ≤ l.length := by
        simp only [List.length_drop, List.length_cons]
        omega
      rw [parseRecordsF_congr (((a :: l).drop 16).drop (readU32 e ((a :: l).drop 8))).length
        l.length (((a :: l).drop 16).drop (readU32 e ((a :: l).drop 8))).length e nano
        _ le_rfl hrl le_rfl]



theorem parseRecords_encodeRecord (e : Endian) (nano : Bool) (r : RawRecord) (rest : ByteSeq)
    (hw : r.wf) :
    parseRecords e nano (encodeRecord e r ++ rest) =
      (frameOf nano r :: (parseRecords e nano rest).1, (parseRecords e nano rest).2) := by
  obtain ⟨hs, hf, hi, hp⟩ := hw
  have hD : encodeRecord e r ++ rest
      = encodeU32 e r.ts_sec ++ (encodeU32 e r.ts_frac ++ (encodeU32 e r.incl ++
          (encodeU32 e r.orig ++ (r.payload ++ rest)))) := by
    simp [encodeRecord, encodeRecordHeader, List.append_assoc]
  have hlen : (encodeRecord e r ++ rest).length = 16 + r.payload.length + rest.length := by
    simp [encodeRecord, length_encodeRecordHeader]
    omega
  rw [parseRecords_eq, if_neg (by omega)]
  have h0 : readU32 e (encodeRecord e r ++ rest) = r.ts_sec := by
    rw [hD, readU32_encodeU32, Nat.mod_eq_of_lt hs]
  have hd4 : (encodeRecord e r ++ rest).drop 4
      = encodeU32 e r.ts_frac ++ (encodeU32 e r.incl ++ (encodeU32 e r.orig ++ (r.payload ++ rest))) := by
    rw [hD, drop_four_encodeU32]
  have h4 : readU32 e ((encodeRecord e r ++ rest).drop 4) = r.ts_frac := by
    rw [hd4, readU32_encodeU32, Nat.mod_eq_of_lt hf]
  have hd8 : (encodeRecord e r ++ rest).drop 8
      = encodeU32 e r.incl ++ (encodeU32 e r.orig ++ (r.payload ++ rest)) := by
    rw [show (8 : Nat) = 4 + 4 from rfl, ← List.drop_drop, hd4, drop_four_encodeU32]
  have h8 : readU32 e ((encodeRecord e r ++ rest).drop 8) = r.incl := by
    rw [hd8, readU32_encodeU32, Nat.mod_eq_of_lt hi]
  have hd16 : (encodeRecord e r ++ rest).drop 16 = r.payload ++ rest := by
    rw [show encodeRecord e r ++ rest = encodeRecordHeader e r ++ (r.payload ++ rest) by
      simp [encodeRecord, List.append_assoc]]
    exact drop_sixteen_header e r (r.payload ++ rest)
  have htake : (r.payload ++ rest).take r.incl = r.payload := by
    rw [← hp]; exact List.take_left r.payload rest
  have hdrop : (r.payload ++ rest).drop r.incl = rest := by
    rw [← hp]; exact List.drop_left r.payload rest
  simp only [h0, h4, h8, hd16, htake, hdrop, hp]
  simp [frameOf, tsOf]

theorem parseRecords_truncated (e : Endian) (nano : Bool) (r : RawRecord) (t : ByteSeq)
    (hs : r.ts_sec < 4294967296) (hf : r.ts_frac < 4294967296) (hi : r.incl < 4294967296)
    (ht : t.length < r.incl) :
    parseRecords e nano (encodeRecordHeader e r ++ t) =
      ([⟨t ++ List.replicate (r.incl - t.length) 0, tsOf nano r, 0⟩], 1) := by
  have hD : encodeRecordHeader e r ++ t
      = encodeU32 e r.ts_sec ++ (encodeU32 e r.ts_frac ++ (encodeU32 e r.incl ++
          (encodeU32 e r.orig ++ t))) := by
    simp [encodeRecordHeader, List.append_assoc]
  have hlen : (encodeRecordHeader e r ++ t).length = 16 + t.length := by
    simp [length_encodeRecordHeader]
  rw [parseRecords_eq, if_neg (by omega)]
  have h0 : readU32 e (encodeRecordHeader e r ++ t) = r.ts_sec := by
    rw [hD, readU32_encodeU32, Nat.mod_eq_of_lt hs]
  have hd4 : (encodeRecordHeader e r ++ t).drop 4
      = encodeU32 e r.ts_frac ++ (encodeU32 e r.incl ++ (encodeU32 e r.orig ++ t)) := by
    rw [hD, drop_four_encodeU32]
  have h4 : readU32 e ((encodeRecordHeader e r ++ t).drop 4) = r.ts_frac := by
    rw [hd4, readU32_encodeU32, Nat.mod_eq_of_lt hf]
  have hd8 : (encodeRecordHeader e r ++ t).drop 8
      = encodeU32 e r.incl ++ (encodeU32 e r.orig ++ t) := by
    rw [show (8 : Nat) = 4 + 4 from rfl, ← List.drop_drop, hd4, drop_four_encodeU32]
  have h8 : readU32 e ((encodeRecordHeader e r ++ t).drop 8) = r.incl := by
    rw [hd8, readU32_encodeU32, Nat.mod_eq_of_lt hi]
  have hd16 : (encodeRecordHeader e r ++ t).drop 16 = t :=
    drop_sixteen_header e r t
  simp only [h0, h4, h8, hd16, List.take_of_length_le (Nat.le_of_lt ht),
    List.drop_eq_nil_of_le (Nat.le_of_lt ht), if_pos ht]
  simp [parseRecords, parseRecordsF, tsOf]

theorem parseRecords_encodeRecords (e : Endian) (nano : Bool) (rs : List RawRecord)
    (tail : ByteSeq) (h : ∀ r ∈ rs, r.wf) :
    parseRecords e nano (encodeRecords e rs ++ tail) =
      (rs.map (frameOf nano) ++ (parseRecords e nano tail).1, (parseRecords e nano tail).2) := by
  induction rs with
  | nil => simp [encodeRecords]
  | cons r rs ih =>
    have hr : r.wf := h r (by simp)
    have hrs : ∀ x ∈ rs, x.wf := fun x hx => h x (by simp [hx])
    show parseRecords e nano ((encodeRecord e r ++ encodeRecords e rs) ++ tail) = _
    rw [List.append_assoc, parseRecords_encodeRecord e nano r _ hr, ih hrs]
    simp

theorem _parse_classic_pcap_ok (en : EndianTag) (ft : FormatType) (run : DpktRun)
    (gh R : ByteSeq) (ps : List Frame) (hgh : gh.length = 24) :
    _parse_classic_pcap false run en ft (.ok (gh ++ R)) ps =
      .ok (ps ++ (parseRecords (endianOf en) (ft == FormatType.nanosecond) R).1,
        (parseRecords (endianOf en) (ft == FormatType.nanosecond) R).2) := by
  have hlen : ¬ (gh ++ R).length < 24 := by simp [hgh]
  have hdrop : (gh ++ R).drop 24 = R := by rw [← hgh]; exact List.drop_left gh R
  unfold _parse_classic_pcap _parse_classic_core
  simp only [if_neg hlen, hdrop]


/-! ### The claims -/

/-- C2: evidence for the code bug: `detect_format` classifies the big-endian
classic magic (file bytes a1 b2 c3 d4) as little-endian, because the
`magic_be` comparison matches the little-endian table entry before the
big-endian entry is reached.  The file is then parsed with little-endian field
decoding: the same one-record capture encoded little-endian parses to a frame
with timestamp 1, but encoded big-endian it parses to timestamp 16777216
(byte-swapped), so byte-order symmetry fails. -/
theorem big_endian_classic_misdetected :
    detect_format (.ok beFileC2) = some (EndianTag.little, FormatType.classic) ∧
    parse_file false ⟨[], false⟩ ⟨[], false⟩ (.ok leFileC2) [] = .ok ([⟨[], 1, 0⟩], 0) ∧
    parse_file false ⟨[], false⟩ ⟨[], false⟩ (.ok beFileC2) [] = .ok ([⟨[], 16777216, 0⟩], 0) := by
  refine ⟨by decide, ?_, ?_⟩ <;>
    norm_num [parse_file, detect_format, lookupMagic, PCAP_MAGIC_NUMBERS, readU32, readU16,
      _parse_classic_pcap, _parse_classic_core, parseRecords, parseRecordsF, endianOf,
      leFileC2, beFileC2, ghDemo, encodeGlobalHeader, encodeU32, encodeU16, encodeRecord,
      encodeRecordHeader]

/-- C4: the classic record reader computes the frame timestamp of the first
record as seconds + fraction / 1e9 when the format is the nanosecond variant
and as seconds + fraction / 1e6 otherwise. -/
theorem classic_timestamp_formula (e : Endian) (nano : Bool) (data : ByteSeq)
    (h : 16 ≤ data.length) :
    ∃ f fs c, parseRecords e nano data = (f :: fs, c) ∧
      f.timestamp =
        (if nano then (readU32 e data : ℚ) + (readU32 e (data.drop 4) : ℚ) / 1000000000
         else (readU32 e data : ℚ) + (readU32 e (data.drop 4) : ℚ) / 1000000) := by
  rw [parseRecords_eq, if_neg (by omega)]
  exact ⟨_, _, _, rfl, rfl⟩

set_option maxRecDepth 8000 in
/-- C4 witness: the spec's concrete record (sec=1700000000, frac=500000,
little-endian, microsecond resolution) yields timestamp 1700000000.5. -/
theorem classic_timestamp_formula_witness :
    16 ≤ c4data.length ∧
    (∃ f fs c, parseRecords Endian.little false c4data = (f :: fs, c) ∧
      f.timestamp = (readU32 Endian.little c4data : ℚ)
        + (readU32 Endian.little (c4data.drop 4) : ℚ) / 1000000) ∧
    (parseRecords Endian.little false c4data).1.map Frame.timestamp = [(3400000001 : ℚ) / 2] := by
  refine ⟨by decide, ?_, ?_⟩
  · exact classic_timestamp_formula Endian.little false c4data (by decide)
  · norm_num [parseRecords, parseRecordsF, c4data, r1demo, encodeRecord, encodeRecordHeader,
      encodeU32, readU32]

/-- C5: when fewer than 16 bytes remain at a record-header boundary, the
classic record loop terminates cleanly: no error (the loop is a total
function), no partial frame for the truncated header, and exactly the frames
of the preceding well-formed records, in file order. -/
theorem classic_short_header_clean_stop (e : Endian) (nano : Bool) (rs : List RawRecord)
    (tail : ByteSeq) (hrs : ∀ r ∈ rs, r.wf) (ht : tail.length < 16) :
    parseRecords e nano (encodeRecords e rs ++ tail) = (rs.map (frameOf nano), 0) := by
  have h0 : parseRecords e nano tail = ([], 0) := by rw [parseRecords_eq, if_pos ht]
  rw [parseRecords_encodeRecords e nano rs tail hrs, h0]
  simp

/-- C5 witness: one well-formed record followed by a 3-byte tail parses to
exactly that record's frame. -/
theorem classic_short_header_clean_stop_witness :
    c5tail.length < 16 ∧
    parseRecords Endian.little false (encodeRecords Endian.little [r1demo] ++ c5tail)
      = ([r1demo].map (frameOf false), 0) :=
  ⟨by decide,
   classic_short_header_clean_stop Endian.little false [r1demo] c5tail (by decide) (by decide)⟩

/-- C3: a classic file whose final record declares captured length `last.incl`
but carries only `last.incl - k` payload bytes (0 < k < `last.incl`) parses
without failure to the frames of the preceding records plus one frame for the
truncated record, whose payload is zero-padded to exactly the declared length
(the last k bytes are zero); the recovered-record count is exactly 1, and the
frame count equals that of the untruncated file (whose recovered count is 0). -/
theorem classic_truncated_final_record (en : EndianTag) (ft : FormatType) (run : DpktRun)
    (gh : ByteSeq) (rs : List RawRecord) (last : RawRecord) (k : Nat)
    (hgh : gh.length = 24) (hrs : ∀ r ∈ rs, r.wf) (hlast : last.wf)
    (hk0 : 0 < k) (hkl : k < last.incl) :
    _parse_classic_pcap false run en ft
        (.ok (gh ++ (encodeRecords (endianOf en) rs ++
          (encodeRecordHeader (endianOf en) last ++ last.payload.take (last.incl - k))))) []
      = .ok (rs.map (frameOf (ft == FormatType.nanosecond)) ++
          [⟨last.payload.take (last.incl - k) ++ List.replicate k 0,
            tsOf (ft == FormatType.nanosecond) last, 0⟩], 1) ∧
    (last.payload.take (last.incl - k) ++ List.replicate k 0).length = last.incl ∧
    (last.payload.take (last.incl - k) ++ List.replicate k 0).drop (last.incl - k)
      = List.replicate k 0 ∧
    _parse_classic_pcap false run en ft
        (.ok (gh ++ encodeRecords (endianOf en) (rs ++ [last]))) []
      = .ok ((rs ++ [last]).map (frameOf (ft == FormatType.nanosecond)), 0) := by
  obtain ⟨hs, hf, hi, hp⟩ := hlast
  have htl : (last.payload.take (last.incl - k)).length = last.incl - k := by
    rw [List.length_take]; omega
  have httrunc : (last.payload.take (last.incl - k)).length < last.incl := by omega
  have hrec := parseRecords_truncated (endianOf en) (ft == FormatType.nanosecond) last
    (last.payload.take (last.incl - k)) hs hf hi httrunc
  rw [htl, show last.incl - (last.incl - k) = k by omega] at hrec
  have hall := parseRecords_encodeRecords (endianOf en) (ft == FormatType.nanosecond) rs
    (encodeRecordHeader (endianOf en) last ++ last.payload.take (last.incl - k)) hrs
  rw [hrec] at hall
  refine ⟨?_, ?_, ?_, ?_⟩
  · rw [_parse_classic_pcap_ok en ft run gh _ [] hgh, hall]
    simp
  · simp [htl]; omega
  · have hgen : ∀ (l1 l2 : ByteSeq) (n : Nat), l1.length = n → (l1 ++ l2).drop n = l2 := by
      intro l1 l2 n hn; subst hn; exact List.drop_left l1 l2
    exact hgen _ _ _ htl
  · have hwf2 : ∀ r ∈ rs ++ [last], r.wf := by
      intro r hr
      rcases List.mem_append.mp hr with h | h
      · exact hrs r h
      · simp at h; subst h; exact ⟨hs, hf, hi, hp⟩
    have hall2 := parseRecords_encodeRecords (endianOf en) (ft == FormatType.nanosecond)
      (rs ++ [last]) [] hwf2
    rw [List.append_nil] at hall2
    have hnil : parseRecords (endianOf en) (ft == FormatType.nanosecond) [] = ([], 0) := by
      simp [parseRecords, parseRecordsF]
    rw [hnil] at hall2
    rw [_parse_classic_pcap_ok en ft run gh _ [] hgh, hall2]
    simp

/-- C3 witness: the spec's concrete scenario: a little-endian classic file with
one well-formed record followed by a final record declaring 20 bytes with only
10 present parses to 2 frames, the last zero-padded to 20 bytes, with
recovered count 1; the untruncated file has the same frame count and recovered
count 0. -/
theorem classic_truncated_final_record_witness :
    (0 : Nat) < 10 ∧ 10 < c3last.incl ∧
    (_parse_classic_pcap false ⟨[], false⟩ EndianTag.little FormatType.classic
        (.ok (ghDemo ++ (encodeRecords (endianOf EndianTag.little) [r1demo] ++
          (encodeRecordHeader (endianOf EndianTag.little) c3last ++
            c3last.payload.take (c3last.incl - 10))))) []
      = .ok ([r1demo].map (frameOf (FormatType.classic == FormatType.nanosecond)) ++
          [⟨c3last.payload.take (c3last.incl - 10) ++ List.replicate 10 0,
            tsOf (FormatType.classic == FormatType.nanosecond) c3last, 0⟩], 1) ∧
    (c3last.payload.take (c3last.incl - 10) ++ List.replicate 10 0).length = c3last.incl ∧
    (c3last.payload.take (c3last.incl - 10) ++ List.replicate 10 0).drop (c3last.incl - 10)
      = List.replicate 10 0 ∧
    _parse_classic_pcap false ⟨[], false⟩ EndianTag.little FormatType.classic
        (.ok (ghDemo ++ encodeRecords (endianOf EndianTag.little) ([r1demo] ++ [c3last]))) []
      = .ok (([r1demo] ++ [c3last]).map (frameOf (FormatType.classic == FormatType.nanosecond)),
          0)) :=
  ⟨by decide, by decide,
   classic_truncated_final_record EndianTag.little FormatType.classic ⟨[], false⟩ ghDemo
     [r1demo] c3last 10 (by decide) (by decide) (by decide) (by decide) (by decide)⟩

/-- C10: one iteration of the scanning-recovery loop either stops — exactly
when fewer than 16 bytes remain at the offset, the declared block length is
zero, or the declared length exceeds the remaining buffer — or advances the
offset by the declared block length rounded up to 4-byte alignment, a strict
increase; hence the offset reaches the end of any finite buffer in finitely
many steps (the loop `fallbackLoopF` is total by structural recursion). -/
theorem scan_step_progress (data : ByteSeq) (pos : Nat) :
    (∀ next, fallbackStep data pos = some next →
      next = pos + align4 (readU32 Endian.little (data.drop (pos + 4))) ∧ pos < next) ∧
    (fallbackStep data pos = none ↔
      data.length < pos + 16 ∨ readU32 Endian.little (data.drop (pos + 4)) = 0 ∨
        data.length - pos < readU32 Endian.little (data.drop (pos + 4))) := by
  constructor
  · intro next h
    simp only [fallbackStep] at h
    by_cases h16 : pos + 16 ≤ data.length
    · rw [if_pos h16] at h
      by_cases hb : readU32 Endian.little (data.drop (pos + 4)) = 0 ∨
          data.length - pos < readU32 Endian.little (data.drop (pos + 4))
      · rw [if_pos hb] at h; cases h
      · rw [if_neg hb] at h
        push_neg at hb
        have hn := Option.some.inj h
        have ha := le_align4 (readU32 Endian.little (data.drop (pos + 4)))
        exact ⟨hn.symm, by omega⟩
    · rw [if_neg h16] at h; cases h
  · constructor
    · intro h
      simp only [fallbackStep] at h
      by_cases h16 : pos + 16 ≤ data.length
      · rw [if_pos h16] at h
        by_cases hb : readU32 Endian.little (data.drop (pos + 4)) = 0 ∨
            data.length - pos < readU32 Endian.little (data.drop (pos + 4))
        · exact Or.inr hb
        · rw [if_neg hb] at h; cases h
      · exact Or.inl (by omega)
    · intro h
      simp only [fallbackStep]
      by_cases h16 : pos + 16 ≤ data.length
      · rw [if_pos h16]
        have hb : readU32 Endian.little (data.drop (pos + 4)) = 0 ∨
            data.length - pos < readU32 Endian.little (data.drop (pos + 4)) := by
          rcases h with h | h | h
          · omega
          · exact Or.inl h
          · exact Or.inr h
        rw [if_pos hb]
      · rw [if_neg h16]

/-- C10 witness: at offset 0 of the 32-byte Enhanced-Packet-Block buffer the
step advances to offset 32. -/
theorem scan_step_progress_witness :
    32 = 0 + align4 (readU32 Endian.little (epb0.drop (0 + 4))) ∧ 0 < 32 :=
  (scan_step_progress epb0 0).1 32 (by decide)

/-- C7 (amended): ScanningBlockRecovery extracts at least one frame from a
buffer that starts with a well-formed Enhanced-Packet-Block (type 6, declared
length between 32 and the buffer length, in-bounds captured length) — the
scan reaches an embedded block only at offsets its declared-length walk lands
on, so the guarantee holds at offset 0 (or after skippable blocks), not under
arbitrary preceding garbage. -/
theorem epb_at_buffer_start_recovered (data : ByteSeq)
    (h6 : readU32 Endian.little data = 6)
    (hL : 32 ≤ readU32 Endian.little (data.drop 4))
    (hin : readU32 Endian.little (data.drop 4) ≤ data.length)
    (hincl : 16 + readU32 Endian.little (data.drop 12) ≤ data.length) :
    1 ≤ (fallbackLoop data 0).length := by
  have hlen : 32 ≤ data.length := le_trans hL hin
  have hstep : fallbackStep data 0 = some (align4 (readU32 Endian.little (data.drop 4))) := by
    simp only [fallbackStep, Nat.zero_add, Nat.sub_zero]
    rw [if_pos (by omega), if_neg (by push_neg; exact ⟨by omega, by omega⟩)]
  have hex : 1 ≤ (fallbackExtract data 0).length := by
    simp only [fallbackExtract, Nat.zero_add, List.drop_zero]
    rw [if_pos ⟨h6, hL⟩, if_pos hincl]
    simp
  unfold fallbackLoop
  obtain ⟨m, hm⟩ : ∃ m, data.length - 0 = m + 1 := ⟨data.length - 1, by omega⟩
  rw [hm]
  simp only [fallbackLoopF]
  rw [hstep]
  simp only [List.length_append]
  omega

/-- C7 witness: the concrete 32-byte Enhanced-Packet-Block at offset 0 is
recovered. -/
theorem epb_at_buffer_start_recovered_witness :
    readU32 Endian.little epb0 = 6 ∧ 32 ≤ readU32 Endian.little (epb0.drop 4) ∧
    readU32 Endian.little (epb0.drop 4) ≤ epb0.length ∧
    16 + readU32 Endian.little (epb0.drop 12) ≤ epb0.length ∧
    1 ≤ (fallbackLoop epb0 0).length :=
  ⟨by decide, by decide, by decide, by decide,
   epb_at_buffer_start_recovered epb0 (by decide) (by decide) (by decide) (by decide)⟩

/-- C7 (counterexample): eight zero bytes of garbage followed by a well-formed
in-bounds Enhanced-Packet-Block at offset 8 defeat the scanner: the garbage
reads as a zero block length, the scan stops immediately, and the fallback
raises instead of extracting the block's frame. -/
theorem garbage_prefix_defeats_recovery :
    _parse_pcapng_fallback (.ok garbEpb) [] = .error (.valueError .couldNotParsePcapng) ∧
    readU32 Endian.little (garbEpb.drop 8) = 6 ∧
    32 ≤ readU32 Endian.little (garbEpb.drop 12) ∧
    readU32 Endian.little (garbEpb.drop 12) ≤ garbEpb.length - 8 ∧
    8 + 16 + readU32 Endian.little (garbEpb.drop 20) ≤ garbEpb.length := by
  exact ⟨rfl, by decide, by decide, by decide, by decide⟩

/-- C1 (amended): when the dpkt pcapng reader fails after yielding frames and
the scanning fallback then succeeds, the parse returns the session's prior
packets, then the frames accumulated by the failed attempt, then the
fallback's frames: partial results are retained and appended to, never
discarded. -/
theorem pcapng_partial_frames_retained (run : DpktRun) (packets : List Frame) (data : ByteSeq)
    (hfail : run.fails = true) (hrec : 0 < (fallbackLoop data 0).length) :
    _parse_pcapng true run (.ok data) packets
      = .ok (packets ++ run.yielded ++ fallbackLoop data 0) := by
  unfold _parse_pcapng _parse_pcapng_fallback
  simp only [hfail, if_true, if_pos hrec]

/-- C1 witness: a failing dpkt run that yielded one frame, followed by a
successful fallback, returns the yielded frame followed by the fallback's
frames. -/
theorem pcapng_partial_frames_retained_witness :
    (⟨[f0C1], true⟩ : DpktRun).fails = true ∧
    _parse_pcapng true ⟨[f0C1], true⟩ (.ok pcapngC1) []
      = .ok ([] ++ [f0C1] ++ fallbackLoop pcapngC1 0) :=
  ⟨rfl, pcapng_partial_frames_retained ⟨[f0C1], true⟩ [] pcapngC1 rfl (by decide)⟩

/-- C1 (counterexample): on a block-structured file, a dpkt reader run that
yields one frame and then raises produces a parse result whose first frame is
the failed attempt's frame — not a frame produced by the fallback (the only
frame the fallback extracts from this file differs from it) — so the frame
sequence is not only the final strategy's output. -/
theorem failed_attempt_frames_not_discarded :
    parse_file true ⟨[f0C1], true⟩ ⟨[], false⟩ (.ok pcapngC1) [] = .ok ([f0C1, f1C1], 0) ∧
    fallbackLoop pcapngC1 0 = [f1C1] ∧ f0C1 ∉ fallbackLoop pcapngC1 0 := by
  refine ⟨?_, ?_, ?_⟩ <;>
    norm_num [parse_file, detect_format, lookupMagic, PCAP_MAGIC_NUMBERS, readU32,
      _parse_pcapng, _parse_pcapng_fallback, fallbackLoop, fallbackLoopF, fallbackStep,
      fallbackExtract, align4, pcapngC1, shb12, epb0, f0C1, f1C1, Except.map]

/-- C6 (amended): when dpkt is available and its reader raises, control passes
to ScanningBlockRecovery: the parse result is exactly the fallback's result on
the file (run on the partially-extended packet list). -/
theorem pcapng_reader_error_runs_recovery (run : DpktRun) (packets : List Frame) (data : ByteSeq)
    (hfail : run.fails = true) :
    _parse_pcapng true run (.ok data) packets
      = _parse_pcapng_fallback (.ok data) (packets ++ run.yielded) := by
  unfold _parse_pcapng
  simp [hfail]

/-- C6 witness: a failing dpkt run on the empty file hands control to the
fallback. -/
theorem pcapng_reader_error_runs_recovery_witness :
    (⟨[], true⟩ : DpktRun).fails = true ∧
    _parse_pcapng true ⟨[], true⟩ (.ok ([] : ByteSeq)) []
      = _parse_pcapng_fallback (.ok ([] : ByteSeq)) ([] ++ ([] : List Frame)) :=
  ⟨rfl, pcapng_reader_error_runs_recovery ⟨[], true⟩ [] [] rfl⟩

/-- C6 (counterexample): when the dpkt capability is missing, `_parse_pcapng`
raises immediately without running ScanningBlockRecovery, even on a file from
which the recovery would have extracted a frame. -/
theorem dpkt_missing_skips_recovery :
    _parse_pcapng false ⟨[], true⟩ (.ok pcapngC1) [] = .error (.valueError .pcapngRequiresDpkt) ∧
    _parse_pcapng_fallback (.ok pcapngC1) [] = .ok [f1C1] := by
  refine ⟨rfl, ?_⟩
  norm_num [_parse_pcapng_fallback, fallbackLoop, fallbackLoopF, fallbackStep, fallbackExtract,
    align4, readU32, pcapngC1, shb12, epb0, f1C1]

/-- C8 (counterexample): an empty (zero-byte) input makes the parse raise:
`load_pcap` rejects it with the empty-file `ValueError` whether or not dpkt is
available, and `parse_file` without dpkt raises unknown-file-format — it does
not return zero frames. -/
theorem empty_input_parse_raises :
    load_pcap true ⟨[], false⟩ ⟨[], false⟩ (.ok []) = .error (.valueError .fileIsEmpty) ∧
    load_pcap false ⟨[], false⟩ ⟨[], false⟩ (.ok []) = .error (.valueError .fileIsEmpty) ∧
    parse_file false ⟨[], false⟩ ⟨[], false⟩ (.ok []) [] = .error (.valueError .unknownFileFormat) :=
  ⟨rfl, rfl, rfl⟩

/-- C8 (amended): format detection classifies the empty input as unrecognized
without raising (`detect_format` returns none), but the parse itself raises:
`load_pcap` always rejects zero-byte files with a `ValueError`, and
`parse_file` with no dpkt raises unknown-file-format instead of returning zero
frames. -/
theorem empty_input_detected_unrecognized_but_raises :
    detect_format (.ok []) = none ∧
    (∀ dpktAvailable pcapngRun dpktRun,
      load_pcap dpktAvailable pcapngRun dpktRun (.ok []) = .error (.valueError .fileIsEmpty)) ∧
    (∀ pcapngRun dpktRun packets,
      parse_file false pcapngRun dpktRun (.ok []) packets
        = .error (.valueError .unknownFileFormat)) :=
  ⟨rfl, fun _ _ _ => rfl, fun _ _ _ => rfl⟩

/-- C9 (counterexample): an I/O error raised while opening the source during
format detection is swallowed: `detect_format` returns the unrecognized
classification, and the parse then fails with the unknown-file-format
`ValueError` — not with the original I/O error. -/
theorem io_error_converted_to_unrecognized :
    detect_format (.error ⟨7⟩) = none ∧
    parse_file false ⟨[], false⟩ ⟨[], false⟩ (.error ⟨7⟩) []
      = .error (.valueError .unknownFileFormat) ∧
    parse_file false ⟨[], false⟩ ⟨[], false⟩ (.error ⟨7⟩) [] ≠ .error (.ioErr ⟨7⟩) := by
  refine ⟨rfl, rfl, ?_⟩
  intro h
  exact PError.noConfusion (Except.error.inj h)

/-- C9 (amended): `detect_format` catches I/O errors and converts them into
the unrecognized classification, after which `parse_file` (without dpkt)
raises unknown-file-format; an I/O error inside the classic reader with no
dpkt fallback, by contrast, propagates unchanged. -/
theorem io_error_paths :
    (∀ e, detect_format (.error e) = none) ∧
    (∀ e endian ftype run packets,
      _parse_classic_pcap false run endian ftype (.error e) packets = .error (.ioErr e)) ∧
    (∀ e pcapngRun dpktRun packets,
      parse_file false pcapngRun dpktRun (.error e) packets
        = .error (.valueError .unknownFileFormat)) :=
  ⟨fun _ => rfl, fun _ _ _ _ _ => rfl, fun _ _ _ _ => rfl⟩

end SillyPCAP
